import Mathlib

/-!
Verification of the schwifty BBAN/IBAN core against its sources.

Strings are modelled as `List Char`.  Machine integers do not occur (Python
integers are unbounded), so `Nat`/`Int` are used directly.  Fallible Python
code (raising exceptions) is modelled with `Except Exc`.

The registry tables (country specs and bank records) are external data in the
repository; they are modelled as an abstract `Registry` value passed to every
operation that consults them.
-/

namespace Schwifty

abbrev Str := List Char

/-- `schwifty.domain.Component`: the closed enumeration of BBAN component
tags. -/
inductive Component where
  | account_id
  | account_type
  | account_code
  | account_holder_id
  | bank_code
  | branch_code
  | national_checksum_digits
deriving DecidableEq, Repr

/-- The exception taxonomy of `schwifty.exceptions` as raised by the modelled
code.  `generationUnsupported` stands for the bare `SchwiftyException`
raised by `BBAN.from_components` when a country has no position table;
`valueError` stands for a Python `ValueError`/`KeyError` escaping from
library code (e.g. `int("")` or `list.index` failures). -/
inductive Exc where
  | invalidCountryCode
  | invalidBankCode
  | invalidBranchCode
  | invalidAccountCode
  | invalidBBANChecksum
  | generationUnsupported
  | valueError
deriving DecidableEq, Repr

/-! ## checksum/__init__.py -/

/-- `_alphabet = string.digits + string.ascii_uppercase` -/
def _alphabet : Str := "0123456789ABCDEFGHIJKLMNOPQRSTUVWXYZ".toList

/-- `_alphabet.index(c)`: position of `c` in the alphabet, `ValueError`
(modelled as `none`) if absent. -/
def charIndex (c : Char) : Option Nat := _alphabet.indexOf? c

/-- Decimal digit string of a natural number, as produced by Python `str(n)`. -/
def natDigits (n : Nat) : Str := (Nat.repr n).toList

/-- Python `int(s)` on a non-empty string of decimal digits. -/
def decToNat (s : Str) : Nat := s.foldl (fun acc c => acc * 10 + (c.toNat - 48)) 0

/-- `numerify(value) = int("".join(str(_alphabet.index(c)) for c in value))`.
`list.index` raises for characters outside the alphabet and `int("")` raises
on the empty string; both are modelled as `.error .valueError`. -/
def numerify (value : Str) : Except Exc Nat := do
  let idxs ← value.mapM (fun c =>
    match charIndex c with
    | some i => Except.ok i
    | none => Except.error Exc.valueError)
  let s := (idxs.map natDigits).foldl (fun a b => a ++ b) []
  if s.isEmpty then Except.error Exc.valueError else Except.ok (decToNat s)

/-- `zfill` as in Python `str.zfill`: left-pad with `'0'` to the given
width; a leading sign character (`'+'` or `'-'`) stays in front of the
inserted zeros (`'-1'.zfill(8)` is `'-0000001'`). -/
def zfill (s : Str) (width : Nat) : Str :=
  match s with
  | [] => List.replicate width '0'
  | c :: rest =>
      if c = '+' ∨ c = '-' then
        c :: (List.replicate (width - (c :: rest).length) '0' ++ rest)
      else
        List.replicate (width - (c :: rest).length) '0' ++ (c :: rest)

/-- `iso7064(n, mod, post_process, n_digits)` =
`f"{post_process(n % mod):0{n_digits}d}"`. -/
def iso7064 (n : Nat) (m : Nat) (post : Nat → Nat) (n_digits : Nat) : Str :=
  zfill (natDigits (post (n % m))) n_digits

/-- A checksum algorithm: the `accepts` component list together with the
`compute` and `validate` member functions (cf. `checksum.Algorithm`). -/
structure Algorithm where
  accepts : List Component
  compute : List Str → Except Exc Str
  validate : List Str → Str → Except Exc Bool

/-- The inherited `Algorithm.validate`: `compute(components) == expected`. -/
def defaultValidate (compute : List Str → Except Exc Str) (components : List Str)
    (expected : Str) : Except Exc Bool := do
  let c ← compute components
  Except.ok (c == expected)

/-- `ISO7064_mod97_10.compute`: `iso7064(numerify("".join(components)) * 100,
97, lambda r: 98 - r)`. -/
def iso7064_mod97_10_compute (components : List Str) : Except Exc Str := do
  let n ← numerify (components.foldl (fun a b => a ++ b) [])
  Except.ok (iso7064 (n * 100) 97 (fun r => 98 - r) 2)

/-- The generic `ISO7064_mod97_10` algorithm (default `accepts` list from the
`Algorithm` base class; `validate` inherited). -/
def ISO7064_mod97_10 : Algorithm where
  accepts := [Component.bank_code, Component.branch_code, Component.account_code]
  compute := iso7064_mod97_10_compute
  validate := defaultValidate iso7064_mod97_10_compute

/-! ## checksum/netherlands.py -/

/-- Python `int(c)` for a single character: the digit value, `ValueError`
otherwise. -/
def charDigit (c : Char) : Except Exc Nat :=
  if c.isDigit then Except.ok (c.toNat - 48) else Except.error Exc.valueError

/-- `netherlands.DefaultAlgorithm.compute`: there is no actual check digit as
part of the BBAN, so the empty string is returned. -/
def nlCompute (_components : List Str) : Except Exc Str := Except.ok []

/-- `netherlands.DefaultAlgorithm.validate`:
`[account_code] = components` (raising on any other arity), then
`sum(int(digit) * (10 - i) for i, digit in enumerate(account_code)) % 11 == 0`.
Weights `10 - i` are Python ints and go negative past position 10. -/
def nlValidate (components : List Str) (_expected : Str) : Except Exc Bool :=
  match components with
  | [account_code] => do
      let ds ← account_code.mapM charDigit
      Except.ok (ds.enum.foldl (fun acc p => acc + (p.2 : Int) * (10 - (p.1 : Int))) 0 % 11 == 0)
  | _ => Except.error Exc.valueError

/-- The `NL:default` algorithm. -/
def NLDefaultAlgorithm : Algorithm where
  accepts := [Component.account_code]
  compute := nlCompute
  validate := nlValidate

/-- `f"{country_code}:{name}"` -/
def algoKey (country_code name : Str) : Str := country_code ++ ':' :: name

/-- The `algorithms` registry as populated by importing the checksum package:
`ISO7064_mod97_10` subclasses registered for BT, ME, MK, PT, RS, SI and the
Dutch algorithm registered for NL, all under the name `"default"`. -/
def algorithms (key : Str) : Option Algorithm :=
  if key = "BT:default".toList ∨ key = "ME:default".toList ∨ key = "MK:default".toList ∨
      key = "PT:default".toList ∨ key = "RS:default".toList ∨ key = "SI:default".toList then
    some ISO7064_mod97_10
  else if key = "NL:default".toList then
    some NLDefaultAlgorithm
  else
    none

/-! ## Registry data model

The IBAN registry and the bank registry are static data tables shipped with
the repository; they are modelled abstractly.  A country entry is a
`CountrySpec`: the per-country dict with its `bban_length`, its optional
`positions` table (`none` models a spec dict without a `"positions"` key; a
component missing from the dict is modelled by mapping it to the empty range
`(0, 0)`, the lookup default used by `_get_position_range`). -/

structure CountrySpec where
  bban_length : Nat
  positions : Option (Component → Nat × Nat)

/-- A bank registry record; only the `checksum_algo` key is relevant to the
modelled code (`bank.get("checksum_algo", "default")`). -/
structure BankRecord where
  checksum_algo : Option Str
deriving DecidableEq, Repr

/-- The registry store: `registry.get("iban")` and `registry.get("bank_code")`. -/
structure Registry where
  iban : Str → Option CountrySpec
  bank_code : Str × Str → Option (List BankRecord)

/-! ## bban.py -/

def EMPTY_RANGE : Nat × Nat := (0, 0)

/-- `_get_bban_spec`: look the country up in the IBAN registry, raising
`InvalidCountryCode` on a `KeyError`. -/
def get_bban_spec (reg : Registry) (country_code : Str) : Except Exc CountrySpec :=
  match reg.iban country_code with
  | some spec => Except.ok spec
  | none => Except.error Exc.invalidCountryCode

/-- `_get_position_range`: `spec.get("positions", {}).get(component_type,
EMPTY_RANGE)`. -/
def get_position_range (spec : CountrySpec) (c : Component) : Nat × Nat :=
  match spec.positions with
  | some pos => pos c
  | none => EMPTY_RANGE

/-- `calc_value_length`: `end - start` of the component's position range. -/
def calc_value_length (spec : CountrySpec) (c : Component) : Nat :=
  (get_position_range spec c).2 - (get_position_range spec c).1

/-- `compute_national_checksum`: resolve `f"{country_code}:default"`; the
empty string if nothing is registered, otherwise
`algo.compute([components[key] for key in algo.accepts])`.  The components
dict is modelled as a total function (the dict built by `from_components`
holds exactly the keys the shipped algorithms access). -/
def compute_national_checksum (country_code : Str) (components : Component → Str) :
    Except Exc Str :=
  match algorithms (algoKey country_code "default".toList) with
  | none => Except.ok []
  | some algo => algo.compute (algo.accepts.map components)

/-- Modelled from the spec: `common.clean` (common.py is not among the
sources); per §4.3 supplied values are normalized by strip and uppercase. -/
def clean (s : Str) : Str :=
  (((s.dropWhile Char.isWhitespace).reverse.dropWhile Char.isWhitespace).reverse).map Char.toUpper

/-- A BBAN: a string value tagged with a country code. -/
structure BBAN where
  country_code : Str
  value : Str
deriving DecidableEq, Repr

/-- Modelled from the spec: `common.Base._get_slice` (common.py is not among
the sources); per §3 a component accessor reads the substring of the BBAN
value over the position range `[start, end)`. -/
def _get_slice (b : BBAN) (start stop : Nat) : Str :=
  (b.value.drop start).take (stop - start)

/-- `BBAN._get_component`: slice the value at the component's position range. -/
def componentSlice (spec : CountrySpec) (b : BBAN) (c : Component) : Str :=
  _get_slice b (get_position_range spec c).1 (get_position_range spec c).2

/-- `BBAN._get_component` including the `spec` property's registry lookup
(which raises `InvalidCountryCode` for an unknown country). -/
def get_component (reg : Registry) (b : BBAN) (c : Component) : Except Exc Str := do
  let spec ← get_bban_spec reg b.country_code
  Except.ok (componentSlice spec b c)

/-- The bank-code splitting step of `from_components`: a bank code of length
`bank_code_length + branch_code_length` is split in two, replacing the given
branch code. -/
def splitPair (bank_code_length branch_code_length : Nat) (bank_code branch_code : Str) :
    Str × Str :=
  if bank_code.length = bank_code_length + branch_code_length then
    (bank_code.take bank_code_length, bank_code.drop bank_code_length)
  else
    (bank_code, branch_code)

/-- Python slice `l[:i]` for an `int` bound `i` (negative bounds count from
the end, clamped at zero). -/
def pyTake (l : Str) (i : Int) : Str :=
  l.take (if 0 ≤ i then i.toNat else l.length - (0 - i).toNat)

/-- One iteration of the assembly loop of `from_components`:
skip components with an empty position range, otherwise write the value
right-aligned at its range: `bban[:end - len(value)] + value + bban[end:]`. -/
def writeComponent (spec : CountrySpec) (bban : Str) (kv : Component × Str) : Str :=
  let pr := get_position_range spec kv.1
  if pr = EMPTY_RANGE then bban
  else pyTake bban ((pr.2 : Int) - (kv.2.length : Int)) ++ kv.2 ++ bban.drop pr.2

/-- The padded components dict built by `from_components` (insertion order:
bank code, branch code, account code; the checksum is added afterwards). -/
def paddedComponents (bank_code_length branch_code_length account_code_length : Nat)
    (bank branch account : Str) : Component → Str := fun c =>
  match c with
  | Component.bank_code => zfill bank bank_code_length
  | Component.branch_code => zfill branch branch_code_length
  | Component.account_code => zfill account account_code_length
  | _ => []

/-- `BBAN.from_components` (bban.py lines 70–123). -/
def from_components (reg : Registry) (country_code : Str)
    (bank_code branch_code account_code : Str) : Except Exc BBAN := do
  let spec ← get_bban_spec reg country_code
  match spec.positions with
  | none => Except.error Exc.generationUnsupported
  | some _ =>
    let bank_code_length := calc_value_length spec Component.bank_code
    let branch_code_length := calc_value_length spec Component.branch_code
    let account_code_length := calc_value_length spec Component.account_code
    let cc := clean country_code
    let bank0 := clean bank_code
    let account := clean account_code
    let branch0 := clean branch_code
    let p := splitPair bank_code_length branch_code_length bank0 branch0
    if p.1.length > bank_code_length then Except.error Exc.invalidBankCode
    else if p.2.length > branch_code_length then Except.error Exc.invalidBranchCode
    else if account.length > account_code_length then Except.error Exc.invalidAccountCode
    else do
      let components := paddedComponents bank_code_length branch_code_length
        account_code_length p.1 p.2 account
      let ncs ← compute_national_checksum cc components
      let pairs : List (Component × Str) :=
        [(Component.bank_code, components Component.bank_code),
         (Component.branch_code, components Component.branch_code),
         (Component.account_code, components Component.account_code),
         (Component.national_checksum_digits, ncs)]
      let bban := pairs.foldl (writeComponent spec) (List.replicate spec.bban_length '0')
      Except.ok { country_code := cc, value := bban }

/-- The `BBAN.bank` property: look up `(country_code, bank_code or
branch_code)` in the bank registry and take the first record, `none` when the
entry is missing or empty. -/
def bankOf (reg : Registry) (b : BBAN) : Except Exc (Option BankRecord) := do
  let bc ← get_component reg b Component.bank_code
  let key ← if bc.isEmpty then get_component reg b Component.branch_code else Except.ok bc
  match reg.bank_code (b.country_code, key) with
  | some (r :: _) => Except.ok (some r)
  | _ => Except.ok none

/-- The algorithm-name resolution step of `validate_national_checksum`:
`(self.bank or {}).get("checksum_algo", "default")`. -/
def resolvedAlgoName (reg : Registry) (b : BBAN) : Except Exc Str := do
  let bankOpt ← bankOf reg b
  Except.ok ((bankOpt.map (fun r => r.checksum_algo.getD "default".toList)).getD
    "default".toList)

/-- `BBAN.validate_national_checksum` (bban.py lines 125–139). -/
def validate_national_checksum (reg : Registry) (b : BBAN) : Except Exc Bool := do
  let algo_name ← resolvedAlgoName reg b
  match algorithms (algoKey b.country_code algo_name) with
  | none => Except.ok true
  | some algo => do
      let comps ← algo.accepts.mapM (get_component reg b)
      let ncd ← get_component reg b Component.national_checksum_digits
      let valid ← algo.validate comps ncd
      if valid then Except.ok false else Except.error Exc.invalidBBANChecksum

/-! ## IBAN generation and checksum validation

iban.py is not among the sources; the check-digit generation and the checksum
validation law are modelled from the spec (§4.4). -/

/-- Modelled from the spec: IBAN check-digit generation (§4.4; iban.py absent
from the sources).  Rearrange to BBAN + country + "00", numerify, and take
`98 - (N mod 97)` zero-padded to two digits. -/
def generateCheckDigits (country_code bban : Str) : Except Exc Str := do
  let n ← numerify (bban ++ country_code ++ "00".toList)
  Except.ok (zfill (natDigits (98 - n % 97)) 2)

/-- Modelled from the spec: `IBAN.generate` (§4.4; iban.py absent from the
sources): build the BBAN via `BBAN.from_components`, compute the check
digits, and concatenate country + check digits + BBAN. -/
def IBAN_generate (reg : Registry) (country_code bank_code account_code branch_code : Str) :
    Except Exc Str := do
  let bban ← from_components reg country_code bank_code branch_code account_code
  let check ← generateCheckDigits bban.country_code bban.value
  Except.ok (bban.country_code ++ check ++ bban.value)

/-- Modelled from the spec: the IBAN checksum validation law (§4.4 step 3;
iban.py absent from the sources): the numerified rearrangement
BBAN + country + check digits must be ≡ 1 (mod 97). -/
def checksumOk (country_code check_digits bban : Str) : Bool :=
  match numerify (bban ++ country_code ++ check_digits) with
  | Except.ok n => n % 97 == 1
  | Except.error _ => false

/-! ## Well-formedness of registry position tables

The real registry data satisfies these: every position range lies inside the
declared BBAN length and the ranges of distinct components do not overlap. -/

/-- A position range is ordered and lies within the BBAN length. -/
def wfRange (L : Nat) (pr : Nat × Nat) : Prop := pr.1 ≤ pr.2 ∧ pr.2 ≤ L

/-- Two position ranges do not overlap. -/
def disjointRange (p q : Nat × Nat) : Prop := p.2 ≤ q.1 ∨ q.2 ≤ p.1

/-- The components written by `from_components`, in dict insertion order. -/
def comps4 : List Component :=
  [Component.bank_code, Component.branch_code, Component.account_code,
   Component.national_checksum_digits]

/-- Well-formedness of a country spec's position table for the four
components `from_components` writes. -/
def specPositionsWf (spec : CountrySpec) : Prop :=
  (∀ c ∈ comps4, wfRange spec.bban_length (get_position_range spec c)) ∧
  ((comps4.map (get_position_range spec)).Pairwise disjointRange)

instance (spec : CountrySpec) : Decidable (specPositionsWf spec) := by
  unfold specPositionsWf wfRange disjointRange
  infer_instance

/-! ## Helper lemmas about slicing and the assembly loop -/

/-- The substring of `l` over the half-open range `[s, e)`. -/
def sliceStr (l : Str) (s e : Nat) : Str := (l.drop s).take (e - s)

theorem _get_slice_eq_sliceStr (b : BBAN) (s e : Nat) :
    _get_slice b s e = sliceStr b.value s e := rfl

theorem componentSlice_eq (spec : CountrySpec) (b : BBAN) (c : Component) :
    componentSlice spec b c =
      sliceStr b.value (get_position_range spec c).1 (get_position_range spec c).2 := rfl

theorem zfill_cons_eq (c : Char) (rest : Str) (w : Nat) :
    zfill (c :: rest) w =
      (if c = '+' ∨ c = '-' then
        c :: (List.replicate (w - (c :: rest).length) '0' ++ rest)
      else
        List.replicate (w - (c :: rest).length) '0' ++ (c :: rest)) := rfl

theorem zfill_length_of_le {s : Str} {w : Nat} (h : s.length ≤ w) :
    (zfill s w).length = w := by
  cases s with
  | nil =>
      simp [zfill]
  | cons c rest =>
      simp only [List.length_cons] at h
      rw [zfill_cons_eq]
      by_cases hc : c = '+' ∨ c = '-'
      · rw [if_pos hc]
        simp only [List.length_cons, List.length_append, List.length_replicate]
        omega
      · rw [if_neg hc]
        simp only [List.length_append, List.length_replicate, List.length_cons]
        omega

theorem zfill_of_length_eq {s : Str} {w : Nat} (h : s.length = w) : zfill s w = s := by
  cases s with
  | nil =>
      have hw : w = 0 := by simpa using h.symm
      subst hw
      rfl
  | cons c rest =>
      have h0 : w - (c :: rest).length = 0 := by omega
      rw [zfill_cons_eq, h0]
      by_cases hc : c = '+' ∨ c = '-'
      · rw [if_pos hc]
        simp
      · rw [if_neg hc]
        simp

theorem writeComponent_eq {spec : CountrySpec} {c : Component} {s e : Nat}
    (l v : Str) (hpr : get_position_range spec c = (s, e)) (hne : (s, e) ≠ EMPTY_RANGE)
    (hv : v.length ≤ e) :
    writeComponent spec l (c, v) = l.take (e - v.length) ++ v ++ l.drop e := by
  unfold writeComponent pyTake
  rw [hpr, if_neg hne]
  have h0 : (0 : Int) ≤ (e : Int) - (v.length : Int) := by omega
  rw [if_pos h0]
  have h1 : ((e : Int) - (v.length : Int)).toNat = e - v.length := by omega
  rw [h1]

theorem writeComponent_empty_range {spec : CountrySpec} {c : Component}
    (l v : Str) (hpr : get_position_range spec c = EMPTY_RANGE) :
    writeComponent spec l (c, v) = l := by
  unfold writeComponent
  rw [hpr, if_pos rfl]

theorem writeComponent_length {spec : CountrySpec} {c : Component} {s e : Nat}
    (l v : Str) (hpr : get_position_range spec c = (s, e))
    (hv : v.length ≤ e - s) (hse : s ≤ e) (heL : e ≤ l.length) :
    (writeComponent spec l (c, v)).length = l.length := by
  by_cases hne : (s, e) = EMPTY_RANGE
  · rw [writeComponent_empty_range l v (hpr.trans hne)]
  · rw [writeComponent_eq l v hpr hne (by omega)]
    simp only [List.length_append, List.length_take, List.length_drop]
    omega

theorem writeComponent_slice_self {spec : CountrySpec} {c : Component} {s e : Nat}
    (l v : Str) (hpr : get_position_range spec c = (s, e))
    (hv : v.length = e - s) (hse : s ≤ e) (heL : e ≤ l.length) :
    sliceStr (writeComponent spec l (c, v)) s e = v := by
  by_cases hne : (s, e) = EMPTY_RANGE
  · rw [writeComponent_empty_range l v (hpr.trans hne)]
    have hse' : (s, e) = ((0 : Nat), (0 : Nat)) := hne
    have hs0 : s = 0 := by
      have := congrArg Prod.fst hse'
      simpa using this
    have he0 : e = 0 := by
      have := congrArg Prod.snd hse'
      simpa using this
    subst hs0
    subst he0
    have hv0 : v = [] := List.eq_nil_of_length_eq_zero (by omega)
    simp [sliceStr, hv0]
  · rw [writeComponent_eq l v hpr hne (by omega)]
    have hes : e - v.length = s := by omega
    rw [hes, sliceStr, List.append_assoc, List.drop_append_eq_append_drop]
    have hlt : (l.take s).length = s := by
      simp only [List.length_take]
      omega
    rw [hlt, List.drop_of_length_le (le_of_eq hlt), Nat.sub_self, List.drop_zero,
      List.nil_append, List.take_append_eq_append_take, List.take_of_length_le (by omega),
      hv.symm, Nat.sub_self, List.take_zero, List.append_nil]

theorem writeComponent_slice_other {spec : CountrySpec} {c : Component} {s e s2 e2 : Nat}
    (l v : Str) (hpr : get_position_range spec c = (s, e))
    (hd : e ≤ s2 ∨ e2 ≤ s)
    (hv : v.length ≤ e - s) (hse : s ≤ e) (heL : e ≤ l.length) :
    sliceStr (writeComponent spec l (c, v)) s2 e2 = sliceStr l s2 e2 := by
  by_cases hne : (s, e) = EMPTY_RANGE
  · rw [writeComponent_empty_range l v (hpr.trans hne)]
  · rw [writeComponent_eq l v hpr hne (by omega)]
    have hwlen : (l.take (e - v.length)).length = e - v.length := by
      simp only [List.length_take]
      omega
    rcases hd with hd | hd
    · -- the write lies entirely to the right of the target range
      unfold sliceStr
      rw [List.drop_append_eq_append_drop]
      have hablen : (l.take (e - v.length) ++ v).length = e := by
        simp only [List.length_append, List.length_take]
        omega
      rw [hablen]
      have h4 : (l.take (e - v.length) ++ v).drop s2 = [] :=
        List.drop_eq_nil_of_le (by omega)
      rw [h4, List.nil_append, List.drop_drop]
      have h5 : e + (s2 - e) = s2 := by omega
      rw [h5]
    · -- the write lies entirely to the left of the target range
      have hkey : ∀ k : Nat, k ≤ e - v.length →
          (l.take (e - v.length) ++ v ++ l.drop e).take k = l.take k := by
        intro k hk
        rw [List.append_assoc, List.take_append_eq_append_take]
        have h6 : k - (l.take (e - v.length)).length = 0 := by omega
        rw [h6, List.take_zero, List.append_nil, List.take_take]
        congr 1
        omega
      unfold sliceStr
      rw [← List.drop_take, ← List.drop_take]
      rw [hkey e2 (by omega)]

@[simp] theorem ok_bind {α β : Type} (a : α) (g : α → Except Exc β) :
    (Except.ok a >>= g) = g a := rfl

@[simp] theorem error_bind {α β : Type} (e : Exc) (g : α → Except Exc β) :
    ((Except.error e : Except Exc α) >>= g) = Except.error e := rfl

theorem mapM_ok {α β : Type} (g : α → Except Exc β) (f : α → β) :
    ∀ l : List α, (∀ a ∈ l, g a = Except.ok (f a)) → l.mapM g = Except.ok (l.map f) := by
  intro l
  induction l with
  | nil => intro _; rfl
  | cons x xs ih =>
      intro h
      rw [List.mapM_cons, h x (List.mem_cons_self x xs)]
      show (List.cons (f x)) <$> (xs.mapM g) = _
      rw [ih (fun a ha => h a (List.mem_cons_of_mem x ha))]
      rfl

theorem get_position_range_of_some {spec : CountrySpec} {pos : Component → Nat × Nat}
    (hpos : spec.positions = some pos) (c : Component) :
    get_position_range spec c = pos c := by
  simp [get_position_range, hpos]

/-- Main characterization of a successful `from_components` run.  The
hypotheses describe the post-split component values: `bank` and `branch` are
the values produced by the splitting step, every value fits its declared
width, the national checksum computation succeeds and its result fits its
declared range, and the spec's position table is well-formed.  The
conclusion gives the produced BBAN string: it has the declared length and
each written component reads back, over its position range, as the
zero-filled value. -/
theorem from_components_ok
    (reg : Registry) (country_code bank_code branch_code account_code : Str)
    (spec : CountrySpec) (pos : Component → Nat × Nat)
    (hreg : reg.iban country_code = some spec)
    (hpos : spec.positions = some pos)
    (hwf : specPositionsWf spec)
    (bank branch : Str)
    (hsplit : splitPair (calc_value_length spec Component.bank_code)
        (calc_value_length spec Component.branch_code) (clean bank_code) (clean branch_code)
        = (bank, branch))
    (hb : bank.length ≤ calc_value_length spec Component.bank_code)
    (hr : branch.length ≤ calc_value_length spec Component.branch_code)
    (ha : (clean account_code).length ≤ calc_value_length spec Component.account_code)
    (ncs : Str)
    (hchk : compute_national_checksum (clean country_code)
        (paddedComponents (calc_value_length spec Component.bank_code)
          (calc_value_length spec Component.branch_code)
          (calc_value_length spec Component.account_code) bank branch (clean account_code))
        = Except.ok ncs)
    (hncs : ncs.length ≤ calc_value_length spec Component.national_checksum_digits) :
    ∃ w : Str,
      from_components reg country_code bank_code branch_code account_code =
        Except.ok { country_code := clean country_code, value := w } ∧
      w.length = spec.bban_length ∧
      sliceStr w (get_position_range spec Component.bank_code).1
          (get_position_range spec Component.bank_code).2 =
        zfill bank (calc_value_length spec Component.bank_code) ∧
      sliceStr w (get_position_range spec Component.branch_code).1
          (get_position_range spec Component.branch_code).2 =
        zfill branch (calc_value_length spec Component.branch_code) ∧
      sliceStr w (get_position_range spec Component.account_code).1
          (get_position_range spec Component.account_code).2 =
        zfill (clean account_code) (calc_value_length spec Component.account_code) := by
  obtain ⟨hwf1, hwf2⟩ := hwf
  rcases hgB : get_position_range spec Component.bank_code with ⟨sB, eB⟩
  rcases hgBr : get_position_range spec Component.branch_code with ⟨sBr, eBr⟩
  rcases hgA : get_position_range spec Component.account_code with ⟨sA, eA⟩
  rcases hgN : get_position_range spec Component.national_checksum_digits with ⟨sN, eN⟩
  have hB : sB ≤ eB ∧ eB ≤ spec.bban_length := by
    have := hwf1 Component.bank_code (by simp [comps4])
    rw [hgB] at this
    exact this
  have hBr : sBr ≤ eBr ∧ eBr ≤ spec.bban_length := by
    have := hwf1 Component.branch_code (by simp [comps4])
    rw [hgBr] at this
    exact this
  have hA : sA ≤ eA ∧ eA ≤ spec.bban_length := by
    have := hwf1 Component.account_code (by simp [comps4])
    rw [hgA] at this
    exact this
  have hN : sN ≤ eN ∧ eN ≤ spec.bban_length := by
    have := hwf1 Component.national_checksum_digits (by simp [comps4])
    rw [hgN] at this
    exact this
  simp only [comps4, List.map_cons, List.map_nil, List.pairwise_cons, List.mem_cons,
    List.mem_singleton, List.not_mem_nil, forall_eq_or_imp, forall_eq,
    List.Pairwise.nil, and_true, IsEmpty.forall_iff, implies_true, hgB, hgBr, hgA, hgN,
    disjointRange] at hwf2
  obtain ⟨⟨dBBr, dBA, dBN⟩, ⟨dBrA, dBrN⟩, dAN⟩ := hwf2
  have hble : calc_value_length spec Component.bank_code = eB - sB := by
    unfold calc_value_length
    rw [hgB]
  have hbrle : calc_value_length spec Component.branch_code = eBr - sBr := by
    unfold calc_value_length
    rw [hgBr]
  have hale : calc_value_length spec Component.account_code = eA - sA := by
    unfold calc_value_length
    rw [hgA]
  have hwne : calc_value_length spec Component.national_checksum_digits = eN - sN := by
    unfold calc_value_length
    rw [hgN]
  rw [hble] at hb
  rw [hbrle] at hr
  rw [hale] at ha
  rw [hwne] at hncs
  rw [hble, hbrle] at hsplit
  rw [hble, hbrle, hale] at hchk
  -- the four written values
  have hlenB : (zfill bank (eB - sB)).length = eB - sB := zfill_length_of_le hb
  have hlenBr : (zfill branch (eBr - sBr)).length = eBr - sBr := zfill_length_of_le hr
  have hlenA : (zfill (clean account_code) (eA - sA)).length = eA - sA :=
    zfill_length_of_le ha
  -- the assembly chain
  set l0 : Str := List.replicate spec.bban_length '0' with hl0
  set l1 := writeComponent spec l0 (Component.bank_code, zfill bank (eB - sB)) with hl1
  set l2 := writeComponent spec l1 (Component.branch_code, zfill branch (eBr - sBr)) with hl2
  set l3 := writeComponent spec l2 (Component.account_code,
    zfill (clean account_code) (eA - sA)) with hl3
  set l4 := writeComponent spec l3 (Component.national_checksum_digits, ncs) with hl4
  have len0 : l0.length = spec.bban_length := by simp [hl0]
  have len1 : l1.length = spec.bban_length := by
    rw [hl1, writeComponent_length l0 _ hgB (by omega) hB.1 (by omega)]
    exact len0
  have len2 : l2.length = spec.bban_length := by
    rw [hl2, writeComponent_length l1 _ hgBr (by omega) hBr.1 (by omega)]
    exact len1
  have len3 : l3.length = spec.bban_length := by
    rw [hl3, writeComponent_length l2 _ hgA (by omega) hA.1 (by omega)]
    exact len2
  have len4 : l4.length = spec.bban_length := by
    rw [hl4, writeComponent_length l3 ncs hgN (by omega) hN.1 (by omega)]
    exact len3
  -- slices of the final string
  have sliceB : sliceStr l4 sB eB = zfill bank (eB - sB) := by
    rw [hl4, writeComponent_slice_other l3 ncs hgN (by omega) (by omega) hN.1 (by omega),
      hl3, writeComponent_slice_other l2 _ hgA (by omega) (by omega) hA.1 (by omega),
      hl2, writeComponent_slice_other l1 _ hgBr (by omega) (by omega) hBr.1 (by omega),
      hl1, writeComponent_slice_self l0 _ hgB (by omega) hB.1 (by omega)]
  have sliceBr : sliceStr l4 sBr eBr = zfill branch (eBr - sBr) := by
    rw [hl4, writeComponent_slice_other l3 ncs hgN (by omega) (by omega) hN.1 (by omega),
      hl3, writeComponent_slice_other l2 _ hgA (by omega) (by omega) hA.1 (by omega),
      hl2, writeComponent_slice_self l1 _ hgBr (by omega) hBr.1 (by omega)]
  have sliceA : sliceStr l4 sA eA = zfill (clean account_code) (eA - sA) := by
    rw [hl4, writeComponent_slice_other l3 ncs hgN (by omega) (by omega) hN.1 (by omega),
      hl3, writeComponent_slice_self l2 _ hgA (by omega) hA.1 (by omega)]
  -- the run of from_components
  refine ⟨l4, ?_, len4, ?_, ?_, ?_⟩
  · simp only [from_components, get_bban_spec, hreg, ok_bind, hpos, hble, hbrle, hale,
      hsplit]
    rw [if_neg (show ¬ (bank, branch).1.length > eB - sB by simp only [Prod.fst]; omega),
      if_neg (show ¬ (bank, branch).2.length > eBr - sBr by simp only [Prod.snd]; omega),
      if_neg (show ¬ (clean account_code).length > eA - sA by omega)]
    rw [show compute_national_checksum (clean country_code)
        (paddedComponents (eB - sB) (eBr - sBr) (eA - sA) (bank, branch).1 (bank, branch).2
          (clean account_code)) = Except.ok ncs from hchk, ok_bind]
    simp only [List.foldl_cons, List.foldl_nil]
    rfl
  · rw [hble]
    exact sliceB
  · rw [hbrle]
    exact sliceBr
  · rw [hale]
    exact sliceA

/-! ## Error analysis of the shipped checksum algorithms -/

theorem mapM_error {α β : Type} (g : α → Except Exc β)
    (hg : ∀ a e, g a = Except.error e → e = Exc.valueError) :
    ∀ (l : List α) (e : Exc), l.mapM g = Except.error e → e = Exc.valueError := by
  intro l
  induction l with
  | nil =>
      intro e h
      rw [show ([] : List α).mapM g = Except.ok ([] : List β) from rfl] at h
      exact Except.noConfusion h
  | cons x xs ih =>
      intro e h
      rw [List.mapM_cons] at h
      cases hx : g x with
      | error e2 =>
          rw [hx, error_bind] at h
          have he : e2 = e := by simpa using h
          exact he ▸ hg x e2 hx
      | ok y =>
          rw [hx, ok_bind] at h
          have h2 : (List.cons y) <$> (xs.mapM g) = Except.error e := h
          cases hxs : xs.mapM g with
          | error e3 =>
              rw [hxs] at h2
              have he : e3 = e := by simpa [Except.map] using h2
              exact he ▸ ih e3 hxs
          | ok ys =>
              rw [hxs] at h2
              simp [Except.map] at h2

theorem numerify_error (v : Str) (e : Exc) (h : numerify v = Except.error e) :
    e = Exc.valueError := by
  unfold numerify at h
  cases hm : v.mapM (fun c =>
      match charIndex c with
      | some i => Except.ok i
      | none => Except.error Exc.valueError) with
  | error e2 =>
      rw [hm, error_bind] at h
      have he : e2 = e := by simpa using h
      refine he ▸ mapM_error _ ?_ v e2 hm
      intro a e3 ha
      cases hc : charIndex a with
      | some i => rw [hc] at ha; exact Except.noConfusion ha
      | none =>
          rw [hc] at ha
          simpa using ha.symm
  | ok idxs =>
      rw [hm, ok_bind] at h
      by_cases hs : ((idxs.map natDigits).foldl (fun a b => a ++ b) []).isEmpty
      · rw [if_pos hs] at h
        simpa using h.symm
      · rw [if_neg hs] at h
        exact Except.noConfusion h

theorem iso7064_compute_error (comps : List Str) (e : Exc)
    (h : iso7064_mod97_10_compute comps = Except.error e) : e = Exc.valueError := by
  unfold iso7064_mod97_10_compute at h
  cases hn : numerify (comps.foldl (fun a b => a ++ b) []) with
  | error e2 =>
      rw [hn, error_bind] at h
      have he : e2 = e := by simpa using h
      exact he ▸ numerify_error _ e2 hn
  | ok n =>
      rw [hn, ok_bind] at h
      exact Except.noConfusion h

theorem charDigit_error (c : Char) (e : Exc) (h : charDigit c = Except.error e) :
    e = Exc.valueError := by
  unfold charDigit at h
  by_cases hdc : c.isDigit
  · rw [if_pos hdc] at h
    exact Except.noConfusion h
  · rw [if_neg hdc] at h
    simpa using h.symm

theorem nlValidate_error (comps : List Str) (expected : Str) (e : Exc)
    (h : nlValidate comps expected = Except.error e) : e = Exc.valueError := by
  rcases comps with _ | ⟨ac, _ | ⟨c2, rest⟩⟩
  · have h2 : (Except.error Exc.valueError : Except Exc Bool) = Except.error e := h
    simpa using h2.symm
  · have h2 : (do
        let ds ← ac.mapM charDigit
        Except.ok (ds.enum.foldl (fun acc p => acc + (p.2 : Int) * (10 - (p.1 : Int))) 0 % 11
          == 0)) = Except.error e := h
    cases hd : ac.mapM charDigit with
    | error e2 =>
        rw [hd, error_bind] at h2
        have he : e2 = e := by simpa using h2
        exact he ▸ mapM_error charDigit charDigit_error ac e2 hd
    | ok ds =>
        rw [hd, ok_bind] at h2
        exact Except.noConfusion h2
  · have h2 : (Except.error Exc.valueError : Except Exc Bool) = Except.error e := h
    simpa using h2.symm

theorem algorithms_validate_error (key : Str) (a : Algorithm)
    (ha : algorithms key = some a) (comps : List Str) (expected : Str) (e : Exc)
    (h : a.validate comps expected = Except.error e) : e = Exc.valueError := by
  unfold algorithms at ha
  by_cases h1 : key = "BT:default".toList ∨ key = "ME:default".toList ∨
      key = "MK:default".toList ∨ key = "PT:default".toList ∨ key = "RS:default".toList ∨
      key = "SI:default".toList
  · rw [if_pos h1] at ha
    have ha2 : a = ISO7064_mod97_10 := by simpa using ha.symm
    subst ha2
    have h2 : defaultValidate iso7064_mod97_10_compute comps expected = Except.error e := h
    unfold defaultValidate at h2
    cases hc : iso7064_mod97_10_compute comps with
    | error e2 =>
        rw [hc, error_bind] at h2
        have he : e2 = e := by simpa using h2
        exact he ▸ iso7064_compute_error comps e2 hc
    | ok c =>
        rw [hc, ok_bind] at h2
        exact Except.noConfusion h2
  · rw [if_neg h1] at ha
    by_cases h2 : key = "NL:default".toList
    · rw [if_pos h2] at ha
      have ha2 : a = NLDefaultAlgorithm := by simpa using ha.symm
      subst ha2
      exact nlValidate_error comps expected e h
    · rw [if_neg h2] at ha
      exact Option.noConfusion ha

/-! ## An example registry used to instantiate the theorems

The position data mirrors the shipped registry entries for DE, NL, PT and IT;
`QQ` is a country whose spec has no position table. -/

def deSpec : CountrySpec where
  bban_length := 18
  positions := some (fun c =>
    match c with
    | Component.bank_code => (0, 8)
    | Component.account_code => (8, 18)
    | _ => (0, 0))

def nlSpec : CountrySpec where
  bban_length := 14
  positions := some (fun c =>
    match c with
    | Component.bank_code => (0, 4)
    | Component.account_code => (4, 14)
    | _ => (0, 0))

def ptSpec : CountrySpec where
  bban_length := 21
  positions := some (fun c =>
    match c with
    | Component.bank_code => (0, 4)
    | Component.branch_code => (4, 8)
    | Component.account_code => (8, 19)
    | Component.national_checksum_digits => (19, 21)
    | _ => (0, 0))

def itSpec : CountrySpec where
  bban_length := 23
  positions := some (fun c =>
    match c with
    | Component.national_checksum_digits => (0, 1)
    | Component.bank_code => (1, 6)
    | Component.branch_code => (6, 11)
    | Component.account_code => (11, 23)
    | _ => (0, 0))

def qqSpec : CountrySpec where
  bban_length := 10
  positions := none

def exampleRegistry : Registry where
  iban := fun cc =>
    if cc = "DE".toList then some deSpec
    else if cc = "NL".toList then some nlSpec
    else if cc = "PT".toList then some ptSpec
    else if cc = "IT".toList then some itSpec
    else if cc = "QQ".toList then some qqSpec
    else none
  bank_code := fun k =>
    if k = ("PT".toList, "0001".toList) then some [{ checksum_algo := some "foo".toList }]
    else none

/-! ## Claim theorems -/

/-- Claim C8: for a country code absent from the IBAN registry, BBAN
operations that resolve the country spec (`from_components`, the component
accessors, and national-checksum validation) raise `InvalidCountryCode`; for
a country present in the registry whose spec has no position table,
`from_components` fails with the generation-unsupported error. -/
theorem claim_C8_unknown_country (reg : Registry) (cc : Str) :
    (reg.iban cc = none →
      (∀ bank branch account, from_components reg cc bank branch account =
          Except.error Exc.invalidCountryCode) ∧
      (∀ v c, get_component reg (BBAN.mk cc v) c = Except.error Exc.invalidCountryCode) ∧
      (∀ v, validate_national_checksum reg (BBAN.mk cc v) =
          Except.error Exc.invalidCountryCode)) ∧
    (∀ spec, reg.iban cc = some spec → spec.positions = none →
      ∀ bank branch account, from_components reg cc bank branch account =
          Except.error Exc.generationUnsupported) := by
  constructor
  · intro h
    refine ⟨fun bank branch account => ?_, fun v c => ?_, fun v => ?_⟩
    · simp [from_components, get_bban_spec, h]
    · simp [get_component, get_bban_spec, h]
    · simp [validate_national_checksum, resolvedAlgoName, bankOf, get_component,
        get_bban_spec, h]
  · intro spec hs hp bank branch account
    simp [from_components, get_bban_spec, hs, hp]

/-- Witness for C8: in the example registry, country `XX` is unknown and
country `QQ` has a spec without a position table. -/
theorem claim_C8_witness :
    from_components exampleRegistry "XX".toList "1".toList [] "2".toList =
        Except.error Exc.invalidCountryCode ∧
      validate_national_checksum exampleRegistry (BBAN.mk "XX".toList "123".toList) =
        Except.error Exc.invalidCountryCode ∧
      from_components exampleRegistry "QQ".toList "1".toList [] "2".toList =
        Except.error Exc.generationUnsupported :=
  ⟨((claim_C8_unknown_country exampleRegistry "XX".toList).1 (by rfl)).1 "1".toList []
      "2".toList,
    ((claim_C8_unknown_country exampleRegistry "XX".toList).1 (by rfl)).2.2 "123".toList,
    (claim_C8_unknown_country exampleRegistry "QQ".toList).2 qqSpec (by rfl) (by rfl)
      "1".toList [] "2".toList⟩

/-- Claim C9: `from_components` never consults the bank table (so the
national checksum written at generation time is always computed from the
algorithm registered under `<country>:default`, ignoring any per-bank
override), while `validate_national_checksum` resolves the algorithm through
the bank record's `checksum_algo` override; a bank override pointing at an
unregistered algorithm therefore makes validation a no-op success even
though generation used the default algorithm. -/
theorem claim_C9_generation_ignores_override :
    (∀ r1 r2 : Registry, r1.iban = r2.iban →
      ∀ cc bank branch account, from_components r1 cc bank branch account =
        from_components r2 cc bank branch account) ∧
    (∀ cc comps a, algorithms (algoKey cc "default".toList) = some a →
      compute_national_checksum cc comps = a.compute (a.accepts.map comps)) ∧
    (∀ (reg : Registry) (b : BBAN) (rec : BankRecord) (nm : Str),
      bankOf reg b = Except.ok (some rec) →
      rec.checksum_algo = some nm →
      algorithms (algoKey b.country_code nm) = none →
      validate_national_checksum reg b = Except.ok true) := by
  refine ⟨?_, ?_, ?_⟩
  · intro r1 r2 h cc bank branch account
    simp [from_components, get_bban_spec, h]
  · intro cc comps a ha
    unfold compute_national_checksum
    rw [ha]
  · intro reg b rec nm hbank hrec halg
    unfold validate_national_checksum resolvedAlgoName
    rw [hbank, ok_bind, ok_bind]
    simp [hrec, halg]

/-- Witness for C9: a PT BBAN whose bank record carries the override `foo`;
`PT:foo` is unregistered so validation succeeds trivially, although
`PT:default` is registered (the ISO 7064 algorithm used at generation). -/
theorem claim_C9_witness :
    validate_national_checksum exampleRegistry
        (BBAN.mk "PT".toList "000100000000000000000".toList) = Except.ok true ∧
      algorithms (algoKey "PT".toList "default".toList) = some ISO7064_mod97_10 :=
  ⟨claim_C9_generation_ignores_override.2.2 exampleRegistry
      (BBAN.mk "PT".toList "000100000000000000000".toList)
      { checksum_algo := some "foo".toList } "foo".toList (by rfl) (by rfl) (by rfl),
    by rfl⟩

/-- Claim C10: `validate_national_checksum` returns `True` exactly when no
algorithm is registered under the resolved key, and returns `False` when a
registered algorithm validated the checksum successfully; success of an
actual validation is signalled by not raising, not by a `True` result. -/
theorem claim_C10_inverted_return (reg : Registry) (b : BBAN) (spec : CountrySpec) (nm : Str)
    (hspec : reg.iban b.country_code = some spec)
    (hname : resolvedAlgoName reg b = Except.ok nm) :
    (validate_national_checksum reg b = Except.ok true ↔
      algorithms (algoKey b.country_code nm) = none) ∧
    (∀ a, algorithms (algoKey b.country_code nm) = some a →
      a.validate (a.accepts.map (componentSlice spec b))
          (componentSlice spec b Component.national_checksum_digits) = Except.ok true →
      validate_national_checksum reg b = Except.ok false) := by
  have hgc : ∀ c, get_component reg b c = Except.ok (componentSlice spec b c) := by
    intro c
    simp [get_component, get_bban_spec, hspec]
  cases halg : algorithms (algoKey b.country_code nm) with
  | none =>
      have hrun : validate_national_checksum reg b = Except.ok true := by
        unfold validate_national_checksum
        rw [hname, ok_bind, halg]
      rw [hrun]
      simp
  | some a =>
      have hrun : validate_national_checksum reg b = (do
          let valid ← a.validate (a.accepts.map (componentSlice spec b))
            (componentSlice spec b Component.national_checksum_digits)
          if valid then Except.ok false else Except.error Exc.invalidBBANChecksum) := by
        unfold validate_national_checksum
        rw [hname, ok_bind, halg]
        show (do
            let comps ← a.accepts.mapM (get_component reg b)
            let ncd ← get_component reg b Component.national_checksum_digits
            let valid ← a.validate comps ncd
            if valid then Except.ok false else Except.error Exc.invalidBBANChecksum) = _
        rw [mapM_ok (get_component reg b) (componentSlice spec b) a.accepts
          (fun c _ => hgc c), ok_bind, hgc Component.national_checksum_digits, ok_bind]
      rw [hrun]
      constructor
      · cases hv : a.validate (a.accepts.map (componentSlice spec b))
            (componentSlice spec b Component.national_checksum_digits) with
        | ok bv =>
            rw [ok_bind]
            cases bv <;> simp
        | error e =>
            rw [error_bind]
            simp
      · intro a2 ha2 hval
        have haa : a2 = a := by
          have := ha2.symm
          simpa using this
        subst haa
        rw [hval, ok_bind]
        simp

/-- Witness for C10: a DE BBAN resolves the name `default`; `DE:default` is
unregistered, so validation returns `True`. -/
theorem claim_C10_witness :
    validate_national_checksum exampleRegistry
        (BBAN.mk "DE".toList "430609677000534100".toList) = Except.ok true :=
  (claim_C10_inverted_return exampleRegistry
      (BBAN.mk "DE".toList "430609677000534100".toList) deSpec "default".toList
      (by rfl) (by rfl)).1.mpr (by rfl)

/-- Claim C4: `validate_national_checksum` raises `InvalidBBANChecksum`
exactly when an algorithm is registered under the resolved
`<country>:<name>` key and its `validate`, applied to the components
extracted in the algorithm's `accepts` order together with the national
checksum digits, returns false; with no registered algorithm the call
succeeds without raising. -/
theorem claim_C4_checksum_error_condition (reg : Registry) (b : BBAN) (spec : CountrySpec)
    (nm : Str) (hspec : reg.iban b.country_code = some spec)
    (hname : resolvedAlgoName reg b = Except.ok nm) :
    (validate_national_checksum reg b = Except.error Exc.invalidBBANChecksum ↔
      ∃ a, algorithms (algoKey b.country_code nm) = some a ∧
        a.validate (a.accepts.map (componentSlice spec b))
          (componentSlice spec b Component.national_checksum_digits) = Except.ok false) ∧
    (algorithms (algoKey b.country_code nm) = none →
      validate_national_checksum reg b = Except.ok true) := by
  have hgc : ∀ c, get_component reg b c = Except.ok (componentSlice spec b c) := by
    intro c
    simp [get_component, get_bban_spec, hspec]
  cases halg : algorithms (algoKey b.country_code nm) with
  | none =>
      have hrun : validate_national_checksum reg b = Except.ok true := by
        unfold validate_national_checksum
        rw [hname, ok_bind, halg]
      rw [hrun]
      simp
  | some a =>
      have hrun : validate_national_checksum reg b = (do
          let valid ← a.validate (a.accepts.map (componentSlice spec b))
            (componentSlice spec b Component.national_checksum_digits)
          if valid then Except.ok false else Except.error Exc.invalidBBANChecksum) := by
        unfold validate_national_checksum
        rw [hname, ok_bind, halg]
        show (do
            let comps ← a.accepts.mapM (get_component reg b)
            let ncd ← get_component reg b Component.national_checksum_digits
            let valid ← a.validate comps ncd
            if valid then Except.ok false else Except.error Exc.invalidBBANChecksum) = _
        rw [mapM_ok (get_component reg b) (componentSlice spec b) a.accepts
          (fun c _ => hgc c), ok_bind, hgc Component.national_checksum_digits, ok_bind]
      rw [hrun]
      refine ⟨?_, fun h => Option.noConfusion h⟩
      cases hv : a.validate (a.accepts.map (componentSlice spec b))
          (componentSlice spec b Component.national_checksum_digits) with
      | ok bv =>
          rw [ok_bind]
          cases bv with
          | true =>
              rw [if_pos rfl]
              constructor
              · intro hcontra
                exact Except.noConfusion hcontra
              · rintro ⟨a2, ha2, hval⟩
                have haa : a2 = a := by simpa using ha2.symm
                subst haa
                rw [hv] at hval
                simp at hval
          | false =>
              rw [if_neg (by simp)]
              constructor
              · intro _
                exact ⟨a, rfl, hv⟩
              · intro _
                rfl
      | error e =>
          rw [error_bind]
          have he : e = Exc.valueError := algorithms_validate_error _ a halg _ _ e hv
          subst he
          constructor
          · intro hcontra
            simp at hcontra
          · rintro ⟨a2, ha2, hval⟩
            have haa : a2 = a := by simpa using ha2.symm
            subst haa
            rw [hv] at hval
            exact Except.noConfusion hval

theorem algorithms_compute_error (key : Str) (a : Algorithm)
    (ha : algorithms key = some a) (comps : List Str) (e : Exc)
    (h : a.compute comps = Except.error e) : e = Exc.valueError := by
  unfold algorithms at ha
  by_cases h1 : key = "BT:default".toList ∨ key = "ME:default".toList ∨
      key = "MK:default".toList ∨ key = "PT:default".toList ∨ key = "RS:default".toList ∨
      key = "SI:default".toList
  · rw [if_pos h1] at ha
    have ha2 : a = ISO7064_mod97_10 := by simpa using ha.symm
    subst ha2
    exact iso7064_compute_error comps e h
  · rw [if_neg h1] at ha
    by_cases h2 : key = "NL:default".toList
    · rw [if_pos h2] at ha
      have ha2 : a = NLDefaultAlgorithm := by simpa using ha.symm
      subst ha2
      exact Except.noConfusion h
    · rw [if_neg h2] at ha
      exact Option.noConfusion ha

theorem compute_national_checksum_error (cc : Str) (comps : Component → Str) (e : Exc)
    (h : compute_national_checksum cc comps = Except.error e) : e = Exc.valueError := by
  unfold compute_national_checksum at h
  cases halg : algorithms (algoKey cc "default".toList) with
  | none =>
      rw [halg] at h
      exact Except.noConfusion h
  | some a =>
      rw [halg] at h
      exact algorithms_compute_error _ a halg _ e h

/-- Witness for C4: an NL BBAN whose account code fails the mod-11 test
raises `InvalidBBANChecksum`; the DE key resolves no algorithm and
validation succeeds. -/
theorem claim_C4_witness :
    validate_national_checksum exampleRegistry
        (BBAN.mk "NL".toList "ABNA0417164301".toList) =
      Except.error Exc.invalidBBANChecksum ∧
    validate_national_checksum exampleRegistry
        (BBAN.mk "DE".toList "430609677000534100".toList) = Except.ok true :=
  ⟨(claim_C4_checksum_error_condition exampleRegistry
      (BBAN.mk "NL".toList "ABNA0417164301".toList) nlSpec "default".toList
      (by rfl) (by rfl)).1.mpr ⟨NLDefaultAlgorithm, by rfl, by rfl⟩,
    (claim_C4_checksum_error_condition exampleRegistry
      (BBAN.mk "DE".toList "430609677000534100".toList) deSpec "default".toList
      (by rfl) (by rfl)).2 (by rfl)⟩

/-- Claim C5 (amended): in `from_components`, provided the bank-code split
rule does not fire (the cleaned bank code's length differs from bank width
plus branch width), a normalized component value exactly at its declared
width passes its width check — with all three components exactly at their
widths no width error is raised — while a value one character longer raises
`InvalidBankCode`, `InvalidBranchCode` or `InvalidAccountCode` respectively
(each given that the checks before it pass).  The unamended claim fails when
the split rule fires: an oversized branch code can then be silently
discarded and accepted. -/
theorem claim_C5_width_boundary (reg : Registry)
    (country_code bank_code branch_code account_code : Str)
    (spec : CountrySpec) (pos : Component → Nat × Nat)
    (hreg : reg.iban country_code = some spec)
    (hpos : spec.positions = some pos)
    (hnosplit : (clean bank_code).length ≠ calc_value_length spec Component.bank_code +
      calc_value_length spec Component.branch_code) :
    ((clean bank_code).length = calc_value_length spec Component.bank_code + 1 →
      from_components reg country_code bank_code branch_code account_code =
        Except.error Exc.invalidBankCode) ∧
    ((clean bank_code).length ≤ calc_value_length spec Component.bank_code →
      (clean branch_code).length = calc_value_length spec Component.branch_code + 1 →
      from_components reg country_code bank_code branch_code account_code =
        Except.error Exc.invalidBranchCode) ∧
    ((clean bank_code).length ≤ calc_value_length spec Component.bank_code →
      (clean branch_code).length ≤ calc_value_length spec Component.branch_code →
      (clean account_code).length = calc_value_length spec Component.account_code + 1 →
      from_components reg country_code bank_code branch_code account_code =
        Except.error Exc.invalidAccountCode) ∧
    ((clean bank_code).length = calc_value_length spec Component.bank_code →
      (clean branch_code).length = calc_value_length spec Component.branch_code →
      (clean account_code).length = calc_value_length spec Component.account_code →
      ∀ er, er = Exc.invalidBankCode ∨ er = Exc.invalidBranchCode ∨
          er = Exc.invalidAccountCode →
        from_components reg country_code bank_code branch_code account_code ≠
          Except.error er) := by
  have hsplit : splitPair (calc_value_length spec Component.bank_code)
      (calc_value_length spec Component.branch_code) (clean bank_code) (clean branch_code) =
      (clean bank_code, clean branch_code) := by
    unfold splitPair
    rw [if_neg hnosplit]
  have hpre :
      from_components reg country_code bank_code branch_code account_code =
      (if (clean bank_code).length > calc_value_length spec Component.bank_code then
        Except.error Exc.invalidBankCode
      else if (clean branch_code).length > calc_value_length spec Component.branch_code then
        Except.error Exc.invalidBranchCode
      else if (clean account_code).length > calc_value_length spec Component.account_code then
        Except.error Exc.invalidAccountCode
      else (do
        let ncs ← compute_national_checksum (clean country_code)
          (paddedComponents (calc_value_length spec Component.bank_code)
            (calc_value_length spec Component.branch_code)
            (calc_value_length spec Component.account_code)
            (clean bank_code) (clean branch_code) (clean account_code))
        Except.ok (BBAN.mk (clean country_code)
          ([(Component.bank_code, zfill (clean bank_code)
              (calc_value_length spec Component.bank_code)),
            (Component.branch_code, zfill (clean branch_code)
              (calc_value_length spec Component.branch_code)),
            (Component.account_code, zfill (clean account_code)
              (calc_value_length spec Component.account_code)),
            (Component.national_checksum_digits, ncs)].foldl (writeComponent spec)
            (List.replicate spec.bban_length '0'))))) := by
    simp only [from_components, get_bban_spec, hreg, ok_bind, hpos, hsplit]
    rfl
  refine ⟨?_, ?_, ?_, ?_⟩
  · intro h1
    rw [hpre]
    rw [if_pos (by omega)]
  · intro h1 h2
    rw [hpre]
    rw [if_neg (by omega), if_pos (by omega)]
  · intro h1 h2 h3
    rw [hpre]
    rw [if_neg (by omega), if_neg (by omega), if_pos (by omega)]
  · intro h1 h2 h3 er her
    rw [hpre]
    rw [if_neg (by omega), if_neg (by omega), if_neg (by omega)]
    cases hc : compute_national_checksum (clean country_code)
        (paddedComponents (calc_value_length spec Component.bank_code)
          (calc_value_length spec Component.branch_code)
          (calc_value_length spec Component.account_code)
          (clean bank_code) (clean branch_code) (clean account_code)) with
    | ok ncs =>
        rw [ok_bind]
        intro hcontra
        exact Except.noConfusion hcontra
    | error e =>
        rw [error_bind]
        have he : e = Exc.valueError := compute_national_checksum_error _ _ e hc
        subst he
        intro hcontra
        have : Exc.valueError = er := by simpa using hcontra
        rcases her with h | h | h <;> rw [h] at this <;> exact Exc.noConfusion this

/-- Counterexample to C5 as stated: with the DE spec (branch width 0), a
cleaned bank code exactly at its width triggers the split rule, and a
supplied branch code one character over its width (length 1 > 0) is
silently discarded instead of raising `InvalidBranchCode`; the call
succeeds. -/
theorem claim_C5_counterexample :
    (clean "9".toList).length = calc_value_length deSpec Component.branch_code + 1 ∧
    from_components exampleRegistry "DE".toList "12345678".toList "9".toList
        "7000534100".toList =
      Except.ok (BBAN.mk "DE".toList "123456787000534100".toList) ∧
    from_components exampleRegistry "DE".toList "12345678".toList "9".toList
        "7000534100".toList ≠ Except.error Exc.invalidBranchCode := by
  refine ⟨rfl, rfl, ?_⟩
  intro h
  rw [show from_components exampleRegistry "DE".toList "12345678".toList "9".toList
      "7000534100".toList =
    Except.ok (BBAN.mk "DE".toList "123456787000534100".toList) from rfl] at h
  exact Except.noConfusion h

/-- Witness for C5 (amended): with the IT spec (bank width 5, branch width
5), a 6-character bank code raises `InvalidBankCode`, a 6-character branch
code raises `InvalidBranchCode`, a 13-character account code raises
`InvalidAccountCode`, and exact-width values raise no width error. -/
theorem claim_C5_witness :
    from_components exampleRegistry "IT".toList "033590".toList [] "100000131525".toList =
      Except.error Exc.invalidBankCode ∧
    from_components exampleRegistry "IT".toList "03359".toList "016001".toList
        "100000131525".toList = Except.error Exc.invalidBranchCode ∧
    from_components exampleRegistry "IT".toList "03359".toList "01600".toList
        "1000001315251".toList = Except.error Exc.invalidAccountCode ∧
    from_components exampleRegistry "IT".toList "03359".toList "01600".toList
        "100000131525".toList ≠ Except.error Exc.invalidBranchCode :=
  ⟨(claim_C5_width_boundary exampleRegistry "IT".toList "033590".toList []
      "100000131525".toList itSpec (fun c =>
        match c with
        | Component.national_checksum_digits => (0, 1)
        | Component.bank_code => (1, 6)
        | Component.branch_code => (6, 11)
        | Component.account_code => (11, 23)
        | _ => (0, 0)) rfl rfl (by decide)).1 (by decide),
    (claim_C5_width_boundary exampleRegistry "IT".toList "03359".toList "016001".toList
      "100000131525".toList itSpec (fun c =>
        match c with
        | Component.national_checksum_digits => (0, 1)
        | Component.bank_code => (1, 6)
        | Component.branch_code => (6, 11)
        | Component.account_code => (11, 23)
        | _ => (0, 0)) rfl rfl (by decide)).2.1 (by decide) (by decide),
    (claim_C5_width_boundary exampleRegistry "IT".toList "03359".toList "01600".toList
      "1000001315251".toList itSpec (fun c =>
        match c with
        | Component.national_checksum_digits => (0, 1)
        | Component.bank_code => (1, 6)
        | Component.branch_code => (6, 11)
        | Component.account_code => (11, 23)
        | _ => (0, 0)) rfl rfl (by decide)).2.2.1 (by decide) (by decide) (by decide),
    (claim_C5_width_boundary exampleRegistry "IT".toList "03359".toList "01600".toList
      "100000131525".toList itSpec (fun c =>
        match c with
        | Component.national_checksum_digits => (0, 1)
        | Component.bank_code => (1, 6)
        | Component.branch_code => (6, 11)
        | Component.account_code => (11, 23)
        | _ => (0, 0)) rfl rfl (by decide)).2.2.2 (by decide) (by decide) (by decide)
      Exc.invalidBranchCode (Or.inr (Or.inl rfl))⟩

/-- Claim C2: for a registry country whose spec has a position table and is
well-formed, and normalized component values fitting their declared widths
(with the national checksum computation succeeding and fitting its range),
`from_components` returns a BBAN whose length is the declared BBAN length
and whose component accessors read back each normalized input zero-left-
padded to its declared width. -/
theorem claim_C2_roundtrip (reg : Registry)
    (country_code bank_code branch_code account_code : Str)
    (spec : CountrySpec) (pos : Component → Nat × Nat)
    (hreg : reg.iban country_code = some spec)
    (hpos : spec.positions = some pos)
    (hwf : specPositionsWf spec)
    (hcc : clean country_code = country_code)
    (hb : (clean bank_code).length ≤ calc_value_length spec Component.bank_code)
    (hr : (clean branch_code).length ≤ calc_value_length spec Component.branch_code)
    (ha : (clean account_code).length ≤ calc_value_length spec Component.account_code)
    (ncs : Str)
    (hchk : compute_national_checksum (clean country_code)
        (paddedComponents (calc_value_length spec Component.bank_code)
          (calc_value_length spec Component.branch_code)
          (calc_value_length spec Component.account_code)
          (clean bank_code) (clean branch_code) (clean account_code)) = Except.ok ncs)
    (hncs : ncs.length ≤ calc_value_length spec Component.national_checksum_digits) :
    ∃ b : BBAN, from_components reg country_code bank_code branch_code account_code =
        Except.ok b ∧
      b.value.length = spec.bban_length ∧
      get_component reg b Component.bank_code =
        Except.ok (zfill (clean bank_code) (calc_value_length spec Component.bank_code)) ∧
      get_component reg b Component.branch_code =
        Except.ok (zfill (clean branch_code) (calc_value_length spec Component.branch_code)) ∧
      get_component reg b Component.account_code =
        Except.ok (zfill (clean account_code)
          (calc_value_length spec Component.account_code)) := by
  have hsplit : splitPair (calc_value_length spec Component.bank_code)
      (calc_value_length spec Component.branch_code) (clean bank_code) (clean branch_code) =
      (clean bank_code, clean branch_code) := by
    unfold splitPair
    by_cases hs : (clean bank_code).length = calc_value_length spec Component.bank_code +
        calc_value_length spec Component.branch_code
    · rw [if_pos hs]
      have hR : clean branch_code = [] := List.eq_nil_of_length_eq_zero (by omega)
      rw [List.take_of_length_le (by omega), List.drop_eq_nil_of_le (by omega), hR]
    · rw [if_neg hs]
  obtain ⟨w, hfc, hlen, hsb, hsr, hsa⟩ := from_components_ok reg country_code bank_code
    branch_code account_code spec pos hreg hpos hwf (clean bank_code) (clean branch_code)
    hsplit hb hr ha ncs hchk hncs
  have hspec2 : reg.iban (BBAN.mk (clean country_code) w).country_code = some spec := by
    show reg.iban (clean country_code) = some spec
    rw [hcc]
    exact hreg
  have hg : ∀ c, get_component reg (BBAN.mk (clean country_code) w) c =
      Except.ok (componentSlice spec (BBAN.mk (clean country_code) w) c) := by
    intro c
    simp [get_component, get_bban_spec, hspec2]
  refine ⟨BBAN.mk (clean country_code) w, hfc, hlen, ?_, ?_, ?_⟩
  · rw [hg Component.bank_code, componentSlice_eq]
    exact congrArg Except.ok hsb
  · rw [hg Component.branch_code, componentSlice_eq]
    exact congrArg Except.ok hsr
  · rw [hg Component.account_code, componentSlice_eq]
    exact congrArg Except.ok hsa

/-- Witness for C2: generating the DE BBAN from bank code 43060967 and
account code 7000534100 and reading all three components back. -/
theorem claim_C2_witness :
    ∃ b : BBAN, from_components exampleRegistry "DE".toList "43060967".toList []
        "7000534100".toList = Except.ok b ∧
      b.value.length = deSpec.bban_length ∧
      get_component exampleRegistry b Component.bank_code =
        Except.ok (zfill (clean "43060967".toList)
          (calc_value_length deSpec Component.bank_code)) ∧
      get_component exampleRegistry b Component.branch_code =
        Except.ok (zfill (clean []) (calc_value_length deSpec Component.branch_code)) ∧
      get_component exampleRegistry b Component.account_code =
        Except.ok (zfill (clean "7000534100".toList)
          (calc_value_length deSpec Component.account_code)) :=
  claim_C2_roundtrip exampleRegistry "DE".toList "43060967".toList [] "7000534100".toList
    deSpec (fun c =>
      match c with
      | Component.bank_code => (0, 8)
      | Component.account_code => (8, 18)
      | _ => (0, 0)) rfl rfl (by decide) (by decide) (by decide) (by decide) (by decide)
    [] (by rfl) (by decide)

/-- Claim C6: in `from_components`, a normalized bank-code value whose
length equals the declared bank width plus branch width is split — its
first bank-width characters become the bank code and the rest become the
branch code — before the width checks run: the call succeeds (for any
supplied branch code, which is discarded) and the accessors read back the
two parts of the split. -/
theorem claim_C6_bank_code_split (reg : Registry)
    (country_code bank_code branch_code account_code : Str)
    (spec : CountrySpec) (pos : Component → Nat × Nat)
    (hreg : reg.iban country_code = some spec)
    (hpos : spec.positions = some pos)
    (hwf : specPositionsWf spec)
    (hcc : clean country_code = country_code)
    (hsplitlen : (clean bank_code).length = calc_value_length spec Component.bank_code +
      calc_value_length spec Component.branch_code)
    (ha : (clean account_code).length ≤ calc_value_length spec Component.account_code)
    (ncs : Str)
    (hchk : compute_national_checksum (clean country_code)
        (paddedComponents (calc_value_length spec Component.bank_code)
          (calc_value_length spec Component.branch_code)
          (calc_value_length spec Component.account_code)
          ((clean bank_code).take (calc_value_length spec Component.bank_code))
          ((clean bank_code).drop (calc_value_length spec Component.bank_code))
          (clean account_code)) = Except.ok ncs)
    (hncs : ncs.length ≤ calc_value_length spec Component.national_checksum_digits) :
    ∃ b : BBAN, from_components reg country_code bank_code branch_code account_code =
        Except.ok b ∧
      get_component reg b Component.bank_code =
        Except.ok ((clean bank_code).take (calc_value_length spec Component.bank_code)) ∧
      get_component reg b Component.branch_code =
        Except.ok ((clean bank_code).drop (calc_value_length spec Component.bank_code)) := by
  have hsplit : splitPair (calc_value_length spec Component.bank_code)
      (calc_value_length spec Component.branch_code) (clean bank_code) (clean branch_code) =
      ((clean bank_code).take (calc_value_length spec Component.bank_code),
        (clean bank_code).drop (calc_value_length spec Component.bank_code)) := by
    unfold splitPair
    rw [if_pos hsplitlen]
  have htlen : ((clean bank_code).take (calc_value_length spec Component.bank_code)).length =
      calc_value_length spec Component.bank_code := by
    simp only [List.length_take]
    omega
  have hdlen : ((clean bank_code).drop (calc_value_length spec Component.bank_code)).length =
      calc_value_length spec Component.branch_code := by
    simp only [List.length_drop]
    omega
  obtain ⟨w, hfc, hlen, hsb, hsr, hsa⟩ := from_components_ok reg country_code bank_code
    branch_code account_code spec pos hreg hpos hwf
    ((clean bank_code).take (calc_value_length spec Component.bank_code))
    ((clean bank_code).drop (calc_value_length spec Component.bank_code))
    hsplit (le_of_eq htlen) (le_of_eq hdlen) ha ncs hchk hncs
  have hspec2 : reg.iban (BBAN.mk (clean country_code) w).country_code = some spec := by
    show reg.iban (clean country_code) = some spec
    rw [hcc]
    exact hreg
  have hg : ∀ c, get_component reg (BBAN.mk (clean country_code) w) c =
      Except.ok (componentSlice spec (BBAN.mk (clean country_code) w) c) := by
    intro c
    simp [get_component, get_bban_spec, hspec2]
  refine ⟨BBAN.mk (clean country_code) w, hfc, ?_, ?_⟩
  · rw [hg Component.bank_code, componentSlice_eq]
    refine congrArg Except.ok ?_
    rw [show sliceStr w (get_position_range spec Component.bank_code).1
        (get_position_range spec Component.bank_code).2 =
      zfill ((clean bank_code).take (calc_value_length spec Component.bank_code))
        (calc_value_length spec Component.bank_code) from hsb]
    exact zfill_of_length_eq htlen
  · rw [hg Component.branch_code, componentSlice_eq]
    refine congrArg Except.ok ?_
    rw [show sliceStr w (get_position_range spec Component.branch_code).1
        (get_position_range spec Component.branch_code).2 =
      zfill ((clean bank_code).drop (calc_value_length spec Component.bank_code))
        (calc_value_length spec Component.branch_code) from hsr]
    exact zfill_of_length_eq hdlen

/-- Witness for C6: the IT spec has bank width 5 and branch width 5; the
10-character bank code 0335901600 splits into bank code 03359 and branch
code 01600, while the supplied branch code 99999 is discarded. -/
theorem claim_C6_witness :
    ∃ b : BBAN, from_components exampleRegistry "IT".toList "0335901600".toList
        "99999".toList "100000131525".toList = Except.ok b ∧
      get_component exampleRegistry b Component.bank_code =
        Except.ok ((clean "0335901600".toList).take
          (calc_value_length itSpec Component.bank_code)) ∧
      get_component exampleRegistry b Component.branch_code =
        Except.ok ((clean "0335901600".toList).drop
          (calc_value_length itSpec Component.bank_code)) :=
  claim_C6_bank_code_split exampleRegistry "IT".toList "0335901600".toList "99999".toList
    "100000131525".toList itSpec (fun c =>
      match c with
      | Component.national_checksum_digits => (0, 1)
      | Component.bank_code => (1, 6)
      | Component.branch_code => (6, 11)
      | Component.account_code => (11, 23)
      | _ => (0, 0)) rfl rfl (by decide) (by decide) (by decide) (by decide) []
    (by rfl) (by decide)

/-! ## The Dutch mod-11 algorithm (claim C7) -/

/-- The spec's weighted digit sum (§4.2 weighted mod-11 family): each digit
of the value multiplied by a positional weight descending from the base
`w0` (`w0` for the first digit, `w0 - 1` for the second, and so on). -/
def specWeightedSum (w0 : Int) : Str → Int
  | [] => 0
  | c :: cs => ((c.toNat - 48 : Nat) : Int) * w0 + specWeightedSum (w0 - 1) cs

/-- The same sum over already-converted digit values. -/
def natWeightedSum (w0 : Int) : List Nat → Int
  | [] => 0
  | d :: ds => (d : Int) * w0 + natWeightedSum (w0 - 1) ds

theorem enumFrom_foldl_weighted (ds : List Nat) :
    ∀ (k : Nat) (acc : Int),
      ((List.enumFrom k ds).foldl (fun acc p => acc + (p.2 : Int) * (10 - (p.1 : Int))) acc) =
        acc + natWeightedSum (10 - (k : Int)) ds := by
  induction ds with
  | nil => intro k acc; simp [natWeightedSum]
  | cons d ds ih =>
      intro k acc
      rw [List.enumFrom_cons, List.foldl_cons, ih (k + 1)]
      have h1 : ((10 : Int) - ((k + 1 : Nat) : Int)) = 10 - (k : Int) - 1 := by
        push_cast
        ring
      rw [h1, show natWeightedSum (10 - (k : Int)) (d :: ds) =
        ((d : Int)) * (10 - (k : Int)) + natWeightedSum (10 - (k : Int) - 1) ds from rfl]
      ring

theorem natWeightedSum_map (w0 : Int) (ac : Str) :
    natWeightedSum w0 (ac.map (fun c => c.toNat - 48)) = specWeightedSum w0 ac := by
  induction ac generalizing w0 with
  | nil => rfl
  | cons c cs ih =>
      rw [List.map_cons]
      unfold natWeightedSum specWeightedSum
      rw [ih]

/-- Claim C7: the Netherlands default algorithm accepts only the
account-code component, its `compute` always returns the empty string, and
its `validate` (on a digit-only account code) returns true exactly when the
sum of digit times weight descending from 10 by position is divisible
by 11. -/
theorem claim_C7_netherlands :
    NLDefaultAlgorithm.accepts = [Component.account_code] ∧
    (∀ comps, NLDefaultAlgorithm.compute comps = Except.ok []) ∧
    (∀ account_code expected : Str, (∀ c ∈ account_code, c.isDigit) →
      NLDefaultAlgorithm.validate [account_code] expected =
        Except.ok (specWeightedSum 10 account_code % 11 == 0)) := by
  refine ⟨rfl, fun comps => rfl, ?_⟩
  intro account_code expected h
  show nlValidate [account_code] expected = _
  have h2 : nlValidate [account_code] expected = (do
      let ds ← account_code.mapM charDigit
      Except.ok (ds.enum.foldl (fun acc p => acc + (p.2 : Int) * (10 - (p.1 : Int))) 0 % 11
        == 0)) := rfl
  rw [h2, mapM_ok charDigit (fun c => c.toNat - 48) account_code (fun c hc => by
    unfold charDigit
    rw [if_pos (h c hc)]), ok_bind]
  have he : (account_code.map (fun c => c.toNat - 48)).enum =
      List.enumFrom 0 (account_code.map (fun c => c.toNat - 48)) := rfl
  rw [he, enumFrom_foldl_weighted, natWeightedSum_map]
  norm_num

/-- Witness for C7: the classic valid Dutch account number 0417164300
passes the elf-proef, and 0417164301 fails it. -/
theorem claim_C7_witness :
    NLDefaultAlgorithm.validate ["0417164300".toList] [] = Except.ok true ∧
    NLDefaultAlgorithm.validate ["0417164301".toList] [] = Except.ok false := by
  constructor
  · rw [claim_C7_netherlands.2.2 "0417164300".toList [] (by decide)]
    exact congrArg Except.ok (by decide)
  · rw [claim_C7_netherlands.2.2 "0417164301".toList [] (by decide)]
    exact congrArg Except.ok (by decide)

/-! ## The generic ISO 7064 mod-97-10 algorithm (claim C1) -/

/-- The spec's character value: digits 0-9 map to 0-9, letters A-Z map to
10-35. -/
def specCharIdx (c : Char) : Nat := if c.isDigit then c.toNat - 48 else c.toNat - 55

/-- The spec's numerification: map each character to its index and
concatenate the indices as decimal digits into one integer (an index below
10 contributes one decimal digit, an index from 10 to 35 two). -/
def specNumerify (s : Str) : Nat :=
  s.foldl (fun n c => n * (if specCharIdx c < 10 then 10 else 100) + specCharIdx c) 0

/-- The spec's zero-padded two-digit decimal rendering. -/
def specFormat2 (x : Nat) : Str :=
  if x < 10 then ['0', Char.ofNat (48 + x)]
  else [Char.ofNat (48 + x / 10), Char.ofNat (48 + x % 10)]

/-- The spec's description of the generic ISO 7064 mod-97-10 `compute`:
numerify the concatenated components into N and format `98 - (N * 100 mod
97)` as a zero-padded two-digit decimal. -/
def specCompute (components : List Str) : Str :=
  specFormat2 (98 - (specNumerify components.flatten * 100) % 97)

theorem foldl_append_eq {α : Type} (l : List (List α)) :
    ∀ init : List α, l.foldl (fun a b => a ++ b) init = init ++ l.flatten := by
  induction l with
  | nil => intro init; simp
  | cons x xs ih =>
      intro init
      rw [List.foldl_cons, ih, List.flatten_cons, List.append_assoc]

theorem decToNat_foldl (b : Str) : ∀ acc : Nat,
    b.foldl (fun acc c => acc * 10 + (c.toNat - 48)) acc = acc * 10 ^ b.length + decToNat b := by
  induction b with
  | nil =>
      intro acc
      simp [decToNat]
  | cons c b ih =>
      intro acc
      rw [List.foldl_cons, ih]
      have hd : decToNat (c :: b) = (c.toNat - 48) * 10 ^ b.length + decToNat b := by
        show List.foldl _ (0 * 10 + (c.toNat - 48)) b = _
        rw [ih (0 * 10 + (c.toNat - 48))]
        ring
      rw [List.length_cons, hd]
      ring

theorem decToNat_append (a b2 : Str) :
    decToNat (a ++ b2) = decToNat a * 10 ^ b2.length + decToNat b2 := by
  show (a ++ b2).foldl _ 0 = _
  rw [List.foldl_append]
  exact decToNat_foldl b2 (decToNat a)

theorem natDigits_small : ∀ i < 36, decToNat (natDigits i) = i ∧
    (natDigits i).length = (if i < 10 then 1 else 2) ∧ natDigits i ≠ [] := by decide

theorem alphabet_charIndex :
    ∀ c ∈ _alphabet, charIndex c = some (specCharIdx c) ∧ specCharIdx c ≤ 35 := by decide

theorem decToNat_flatten_digits :
    ∀ s : Str, (∀ c ∈ s, c ∈ _alphabet) →
      decToNat ((s.map (fun c => natDigits (specCharIdx c))).flatten) = specNumerify s := by
  intro s
  induction s using List.reverseRecOn with
  | nil => intro _; rfl
  | append_singleton s c ih =>
      intro h
      have hc := alphabet_charIndex c (h c (by simp))
      have hsmall := natDigits_small (specCharIdx c) (by omega)
      rw [List.map_append, List.map_singleton, List.flatten_append,
        show ([natDigits (specCharIdx c)] : List Str).flatten = natDigits (specCharIdx c) by
          simp,
        decToNat_append, ih (fun a ha => h a (by simp [ha])), hsmall.1]
      have hsp : specNumerify (s ++ [c]) = List.foldl
          (fun n c => n * (if specCharIdx c < 10 then 10 else 100) + specCharIdx c)
          (specNumerify s) [c] := by
        unfold specNumerify
        rw [List.foldl_append]
      rw [hsp, List.foldl_cons, List.foldl_nil, hsmall.2.1]
      by_cases hlt : specCharIdx c < 10
      · rw [if_pos hlt, if_pos hlt]
        norm_num
      · rw [if_neg hlt, if_neg hlt]
        norm_num

theorem numerify_spec (s : Str) (h : ∀ c ∈ s, c ∈ _alphabet) (hne : s ≠ []) :
    numerify s = Except.ok (specNumerify s) := by
  unfold numerify
  rw [mapM_ok _ specCharIdx s (fun c hc => by rw [(alphabet_charIndex c (h c hc)).1]),
    ok_bind, List.map_map, show natDigits ∘ specCharIdx =
      (fun c => natDigits (specCharIdx c)) from rfl, foldl_append_eq, List.nil_append]
  have hne2 : (s.map (fun c => natDigits (specCharIdx c))).flatten ≠ [] := by
    rcases s with _ | ⟨c, rest⟩
    · exact absurd rfl hne
    · rw [List.map_cons, List.flatten_cons]
      have hc := alphabet_charIndex c (h c (by simp))
      have hd := natDigits_small (specCharIdx c) (by omega)
      intro hcontra
      exact hd.2.2 (List.append_eq_nil.mp hcontra).1
  rw [if_neg (by simpa using hne2), decToNat_flatten_digits s h]

theorem format2_eq : ∀ x < 100, zfill (natDigits x) 2 = specFormat2 x := by decide

/-- Claim C1: on component strings over the alphabet 0-9A-Z (whose
concatenation is non-empty, so that a numeral exists), the generic ISO 7064
mod-97-10 `compute` returns exactly the string described by the spec: map
each character to its 0-9A-Z index, concatenate the indices as decimal
digits into an integer N, and format `98 - ((N * 100) mod 97)` as a
zero-padded 2-digit decimal. -/
theorem claim_C1_generic_iso7064 (components : List Str)
    (halpha : ∀ c ∈ components.flatten, c ∈ _alphabet)
    (hne : components.flatten ≠ []) :
    ISO7064_mod97_10.compute components = Except.ok (specCompute components) := by
  show iso7064_mod97_10_compute components = _
  unfold iso7064_mod97_10_compute
  rw [foldl_append_eq, List.nil_append, numerify_spec _ halpha hne, ok_bind]
  refine congrArg Except.ok ?_
  unfold iso7064 specCompute
  have hr : (specNumerify components.flatten * 100) % 97 < 97 := Nat.mod_lt _ (by omega)
  show zfill (natDigits (98 - (specNumerify components.flatten * 100) % 97)) 2 = _
  exact format2_eq _ (by omega)

/-- Witness for C1: the components `["12", "AB"]`. -/
theorem claim_C1_witness :
    ISO7064_mod97_10.compute ["12".toList, "AB".toList] =
      Except.ok (specCompute ["12".toList, "AB".toList]) :=
  claim_C1_generic_iso7064 ["12".toList, "AB".toList] (by decide) (by decide)

/-! ## The IBAN check-digit law (claim C3) -/

theorem fmt2_alphabet :
    ∀ d < 100, ∀ c ∈ specFormat2 d, c ∈ _alphabet ∧ specCharIdx c < 10 := by decide

theorem fmt2_value : ∀ d < 100, specNumerify (specFormat2 d) = d := by decide

theorem fmt2_len : ∀ d < 100, (specFormat2 d).length = 2 := by decide

theorem specNumerify_foldl_digits (B : Str) :
    ∀ acc : Nat, (∀ c ∈ B, specCharIdx c < 10) →
      B.foldl (fun n c => n * (if specCharIdx c < 10 then 10 else 100) + specCharIdx c) acc =
        acc * 10 ^ B.length + specNumerify B := by
  induction B with
  | nil =>
      intro acc _
      simp [specNumerify]
  | cons c B ih =>
      intro acc h
      have hc : specCharIdx c < 10 := h c (by simp)
      rw [List.foldl_cons, if_pos hc, ih _ (fun a ha => h a (by simp [ha]))]
      have hs : specNumerify (c :: B) = specCharIdx c * 10 ^ B.length + specNumerify B := by
        show List.foldl _ (0 * (if specCharIdx c < 10 then 10 else 100) + specCharIdx c) B = _
        rw [if_pos hc, ih (0 * 10 + specCharIdx c) (fun a ha => h a (by simp [ha]))]
        ring
      rw [List.length_cons, hs]
      ring

theorem specNumerify_append_digits (A B : Str) (h : ∀ c ∈ B, specCharIdx c < 10) :
    specNumerify (A ++ B) = specNumerify A * 10 ^ B.length + specNumerify B := by
  show List.foldl _ 0 (A ++ B) = _
  rw [List.foldl_append]
  exact specNumerify_foldl_digits B (specNumerify A) h

/-- Claim C3 (amended): modelled from the spec (iban.py is not among the
sources), generation computes the unique check value `k` with `2 ≤ k ≤ 98`
making the mod-97 validation law hold, and a two-digit value passes
validation exactly when it is congruent to `k` modulo 97 — so every other
value in the range 02–98 fails, but the out-of-band values 00, 01 and 99
also pass when `k` is 97, 98 or 2 respectively (refuting the original
"any other 2-digit value fails").  Concretely,
`IBAN.generate("DE", "43060967", "7000534100")` is
`"DE42430609677000534100"`. -/
theorem claim_C3_checksum_law :
    (∀ country bban : Str, (∀ c ∈ bban ++ country, c ∈ _alphabet) →
      ∃ k : Nat, generateCheckDigits country bban = Except.ok (specFormat2 k) ∧
        2 ≤ k ∧ k ≤ 98 ∧ checksumOk country (specFormat2 k) bban = true ∧
        (∀ d : Nat, d ≤ 99 →
          (checksumOk country (specFormat2 d) bban = true ↔ d % 97 = k % 97))) ∧
    IBAN_generate exampleRegistry "DE".toList "43060967".toList "7000534100".toList [] =
      Except.ok "DE42430609677000534100".toList := by
  constructor
  · intro country bban halpha
    have hnum : ∀ d : Nat, d < 100 → numerify (bban ++ country ++ specFormat2 d) =
        Except.ok (specNumerify (bban ++ country) * 100 + d) := by
      intro d hd
      have halpha2 : ∀ c ∈ (bban ++ country) ++ specFormat2 d, c ∈ _alphabet := by
        intro c hc
        rcases List.mem_append.mp hc with h1 | h1
        · exact halpha c h1
        · exact (fmt2_alphabet d hd c h1).1
      have hne2 : (bban ++ country) ++ specFormat2 d ≠ [] := by
        intro hcontra
        have hlc := congrArg List.length hcontra
        rw [List.length_append, fmt2_len d hd] at hlc
        simp at hlc
      rw [numerify_spec _ halpha2 hne2]
      refine congrArg Except.ok ?_
      rw [specNumerify_append_digits _ _ (fun c hc => (fmt2_alphabet d hd c hc).2),
        fmt2_len d hd, fmt2_value d hd]
      norm_num
    have hck : ∀ d : Nat, d < 100 → checksumOk country (specFormat2 d) bban =
        ((specNumerify (bban ++ country) * 100 + d) % 97 == 1) := by
      intro d hd
      unfold checksumOk
      rw [hnum d hd]
    have hr : (specNumerify (bban ++ country) * 100) % 97 < 97 := Nat.mod_lt _ (by omega)
    refine ⟨98 - (specNumerify (bban ++ country) * 100) % 97, ?_, by omega, by omega, ?_, ?_⟩
    · unfold generateCheckDigits
      have h00 : ("00".toList : Str) = specFormat2 0 := by decide
      rw [h00, hnum 0 (by omega), ok_bind]
      refine congrArg Except.ok ?_
      rw [Nat.add_zero]
      exact format2_eq _ (by omega)
    · rw [hck _ (by omega), beq_iff_eq]
      omega
    · intro d hd
      rw [hck d (by omega), beq_iff_eq]
      omega
  · rfl

/-- Counterexample to C3 as stated: for the DE BBAN 000000000000000048 the
generated check value is 98, yet the distinct two-digit value 01 also
passes the mod-97 validation law. -/
theorem claim_C3_counterexample :
    generateCheckDigits "DE".toList "000000000000000048".toList =
        Except.ok "98".toList ∧
      checksumOk "DE".toList "01".toList "000000000000000048".toList = true ∧
      ("01".toList : Str) ≠ "98".toList := ⟨rfl, rfl, by decide⟩

/-- Witness for C3: the law instantiated at the DE test vector. -/
theorem claim_C3_witness :
    ∃ k : Nat, generateCheckDigits "DE".toList "430609677000534100".toList =
        Except.ok (specFormat2 k) ∧ 2 ≤ k ∧ k ≤ 98 ∧
        checksumOk "DE".toList (specFormat2 k) "430609677000534100".toList = true ∧
        (∀ d : Nat, d ≤ 99 → (checksumOk "DE".toList (specFormat2 d)
          "430609677000534100".toList = true ↔ d % 97 = k % 97)) :=
  claim_C3_checksum_law.1 "DE".toList "430609677000534100".toList (by decide)

end Schwifty
